import Mathlib

/-!
Shallow embedding of the tool invocation and orchestration engine of the
BHTI notebook repository: the `AgentTool` / `Tool` decorator, the
`AgentToolExecutor`, the structured tool-calling `Agent` loop
(12-Lesson-Agent-Tool-Execution-Loop), the text-prompt / ReAct `Agent`
(Module 8, lesson 15) and the standalone `parse_nested_json` extractor
(13-Lesson-Agent-Tool-Selection-Prompt).

Python strings are `String` / `List Char`; Python dicts are association
lists mutated with Python `dict` semantics (`pySet` keeps the position of
an existing key and overwrites its value); Python exceptions are the
explicit `PyErr` type (a `raise ... from e` chain is the `cause` field);
functions that can raise return `Except PyErr _`.  The `random.randint`
call inside the `get_weather` toy tool is modelled by passing the drawn
temperature as a parameter.
-/

namespace BHTI

/-! ### Characters written via code points so that no quote, brace or
backslash appears inside a character literal. -/

/-- The double-quote character. -/
def qc : Char := Char.ofNat 34

/-- The backslash character. -/
def bsc : Char := Char.ofNat 92

/-- The single-quote character. -/
def sqc : Char := Char.ofNat 39

/-- The opening curly brace. -/
def obc : Char := Char.ofNat 123

/-- The closing curly brace. -/
def cbc : Char := Char.ofNat 125

/-- Newline. -/
def nlc : Char := Char.ofNat 10

/-- Horizontal tab. -/
def tbc : Char := Char.ofNat 9

/-- Carriage return. -/
def crc : Char := Char.ofNat 13

/-- The single-quote character as a one-character string (used to rebuild
the f-string error messages of the source). -/
def sq : String := String.mk [sqc]

/-! ### Python `str` primitives. -/

/-- Python whitespace as used by `str.strip()` (restricted to the
whitespace characters that occur in this repository's data). -/
def isPyWs (c : Char) : Bool :=
  c = ' ' || c = nlc || c = tbc || c = crc

/-- Worker for `replaceAll`, structurally recursive on a fuel counter so
that concrete inputs evaluate by kernel reduction.  Every step consumes
one unit of fuel and at least one input character, so fuel equal to the
input length never runs out. -/
def replaceAllAux (pat rep : List Char) : Nat → List Char → List Char
  | 0, s => s
  | _ + 1, [] => []
  | fuel + 1, c :: rest =>
    if pat.isPrefixOf (c :: rest) && !pat.isEmpty then
      rep ++ replaceAllAux pat rep fuel (List.drop (pat.length - 1) rest)
    else
      c :: replaceAllAux pat rep fuel rest

/-- `str.replace(pat, rep)`: replace every non-overlapping occurrence of
`pat`, scanning left to right.  (Our patterns are never empty; for an
empty pattern the input is returned unchanged.) -/
def replaceAll (pat rep : List Char) (s : List Char) : List Char :=
  replaceAllAux pat rep s.length s

/-- `str.replace` lifted to `String`. -/
def pyReplace (s pat rep : String) : String :=
  String.mk (replaceAll pat.data rep.data s.data)

/-- Python `needle in hay` (substring containment). -/
def infixOf (needle : List Char) : List Char → Bool
  | [] => needle.isEmpty
  | c :: rest => needle.isPrefixOf (c :: rest) || infixOf needle rest

/-- Substring containment lifted to `String`. -/
def strContains (hay needle : String) : Bool :=
  infixOf needle.data hay.data

/-- Python `str.lower()` (ASCII case folding, which covers the
repository's data). -/
def pyLower (s : String) : String :=
  String.mk (s.data.map Char.toLower)

/-- Strip characters satisfying `isPyWs` from both ends (Python
`str.strip()`). -/
def stripChars (l : List Char) : List Char :=
  ((l.dropWhile isPyWs).reverse.dropWhile isPyWs).reverse

/-- `str.strip()` lifted to `String`. -/
def pyStrip (s : String) : String :=
  String.mk (stripChars s.data)

/-- Drop everything up to and including the first occurrence of `pat`
(identity on lists without an occurrence; helper for `splitLast`). -/
def dropAfterFirst (pat : List Char) : List Char → List Char
  | [] => []
  | c :: rest =>
    if pat.isPrefixOf (c :: rest) then
      List.drop (pat.length - 1) rest
    else
      dropAfterFirst pat rest

/-- Worker for `splitLast`, structurally recursive on a fuel counter.
Each iteration drops past one occurrence of the (nonempty) pattern and so
consumes at least one input character; fuel equal to the input length
never runs out. -/
def splitLastAux (pat : List Char) : Nat → List Char → List Char
  | 0, s => s
  | fuel + 1, s =>
    if pat.isEmpty then s
    else if infixOf pat s then splitLastAux pat fuel (dropAfterFirst pat s)
    else s

/-- Python `s.split(pat)[-1]`: the suffix after the last non-overlapping
occurrence of `pat` (the whole string when `pat` does not occur). -/
def splitLast (pat : List Char) (s : List Char) : List Char :=
  splitLastAux pat s.length s

/-! ### Python `dict` as an association list. -/

/-- `d[k] = v` on a Python dict: overwrite in place when the key exists
(keeping its position), append otherwise. -/
def pySet {α : Type} (d : List (String × α)) (k : String) (v : α) : List (String × α) :=
  match d with
  | [] => [(k, v)]
  | (k', v') :: rest =>
    if k' = k then (k', v) :: rest else (k', v') :: pySet rest k v

/-- Python `dict(pairs)`: build a dict by inserting the pairs in order. -/
def pyDictOfPairs {α : Type} (pairs : List (String × α)) : List (String × α) :=
  pairs.foldl (fun d kv => pySet d kv.1 kv.2) []

/-- Python `d.update(other)`: insert `other`'s entries into `d` in order. -/
def pyDictUpdate {α : Type} (d other : List (String × α)) : List (String × α) :=
  other.foldl (fun acc kv => pySet acc kv.1 kv.2) d

/-! ### JSON values and `json.loads` / `json.dumps`.

The repository drives both through the Python standard library; we embed
the fragment its payloads exercise: objects, arrays, strings (with the
standard escape sequences), integers, booleans and null.  Fractional and
exponent number forms are not modelled (no payload in the repository uses
them). -/

/-- A decoded JSON value.  Objects keep `dict` insertion order; duplicate
keys are resolved while parsing with `pySet` (last value wins), exactly
as `json.loads` builds a Python `dict`. -/
inductive Json where
  | null : Json
  | bool (b : Bool) : Json
  | num (n : Int) : Json
  | str (s : String) : Json
  | arr (xs : List Json) : Json
  | obj (kvs : List (String × Json)) : Json

/-- Hexadecimal digit value. -/
def hexVal (c : Char) : Option Nat :=
  if '0' ≤ c ∧ c ≤ '9' then some (c.toNat - 48)
  else if 'a' ≤ c ∧ c ≤ 'f' then some (c.toNat - 87)
  else if 'A' ≤ c ∧ c ≤ 'F' then some (c.toNat - 70)
  else none

/-- Translation of a single-character JSON string escape. -/
def escChar (e : Char) : Option Char :=
  if e = qc then some qc
  else if e = bsc then some bsc
  else if e = '/' then some '/'
  else if e = 'b' then some (Char.ofNat 8)
  else if e = 'f' then some (Char.ofNat 12)
  else if e = 'n' then some nlc
  else if e = 'r' then some crc
  else if e = 't' then some tbc
  else none

/-- Parse the body of a JSON string literal (the opening quote already
consumed); returns the decoded characters and the rest of the input. -/
def parseStrLit : List Char → Option (List Char × List Char)
  | [] => none
  | c :: rest =>
    if c = qc then some ([], rest)
    else if c = bsc then
      match rest with
      | [] => none
      | e :: rest2 =>
        if e = 'u' then
          match rest2 with
          | h1 :: h2 :: h3 :: h4 :: rest3 =>
            match hexVal h1, hexVal h2, hexVal h3, hexVal h4 with
            | some a, some b, some c3, some d =>
              (parseStrLit rest3).map
                (fun p => (Char.ofNat (((a * 16 + b) * 16 + c3) * 16 + d) :: p.1, p.2))
            | _, _, _, _ => none
          | _ => none
        else
          match escChar e with
          | some ec => (parseStrLit rest2).map (fun p => (ec :: p.1, p.2))
          | none => none
    else if c.toNat < 32 then none
    else (parseStrLit rest).map (fun p => (c :: p.1, p.2))

/-- JSON whitespace (space, tab, newline, carriage return). -/
def isJsonWs (c : Char) : Bool :=
  c = ' ' || c = tbc || c = nlc || c = crc

/-- Skip leading JSON whitespace. -/
def skipWs (s : List Char) : List Char :=
  s.dropWhile isJsonWs

/-- Consume a nonempty run of decimal digits and return its value. -/
def parseDigits (s : List Char) : Option (Nat × List Char) :=
  match s.span Char.isDigit with
  | ([], _) => none
  | (ds, rest) => some (ds.foldl (fun a c => a * 10 + (c.toNat - 48)) 0, rest)

mutual

/-- Parse one JSON value; `fuel` bounds the recursion depth (every unit of
fuel spent corresponds to at least one consumed character, so
`length + 1` fuel always suffices). -/
def parseVal : Nat → List Char → Option (Json × List Char)
  | 0, _ => none
  | fuel + 1, s =>
    match skipWs s with
    | [] => none
    | c :: rest =>
      if c = qc then
        (parseStrLit rest).map (fun p => (Json.str (String.mk p.1), p.2))
      else if c = obc then
        parseObjBody fuel true [] rest
      else if c = '[' then
        parseArrBody fuel true [] rest
      else if c = 't' then
        if ['r', 'u', 'e'].isPrefixOf rest then some (Json.bool true, rest.drop 3) else none
      else if c = 'f' then
        if ['a', 'l', 's', 'e'].isPrefixOf rest then some (Json.bool false, rest.drop 4) else none
      else if c = 'n' then
        if ['u', 'l', 'l'].isPrefixOf rest then some (Json.null, rest.drop 3) else none
      else if c = '-' then
        (parseDigits rest).map (fun p => (Json.num (-(p.1 : Int)), p.2))
      else if c.isDigit then
        (parseDigits (c :: rest)).map (fun p => (Json.num (p.1 : Int), p.2))
      else none

/-- Parse the members of a JSON object after the opening brace (or after a
comma); `first` is true before the first member. -/
def parseObjBody : Nat → Bool → List (String × Json) → List Char → Option (Json × List Char)
  | 0, _, _, _ => none
  | fuel + 1, first, acc, s =>
    match skipWs s with
    | [] => none
    | c :: rest =>
      if c = cbc then
        if first then some (Json.obj acc, rest) else none
      else if c = qc then
        match parseStrLit rest with
        | none => none
        | some (key, r1) =>
          match skipWs r1 with
          | ':' :: r2 =>
            match parseVal fuel r2 with
            | none => none
            | some (v, r3) =>
              let acc := pySet acc (String.mk key) v
              match skipWs r3 with
              | ',' :: r4 => parseObjBody fuel false acc r4
              | c2 :: r4 => if c2 = cbc then some (Json.obj acc, r4) else none
              | [] => none
          | _ => none
      else none

/-- Parse the elements of a JSON array after the opening bracket (or
after a comma); `first` is true before the first element. -/
def parseArrBody : Nat → Bool → List Json → List Char → Option (Json × List Char)
  | 0, _, _, _ => none
  | fuel + 1, first, acc, s =>
    match skipWs s with
    | [] => none
    | c :: rest =>
      if c = ']' then
        if first then some (Json.arr acc.reverse, rest) else none
      else
        match parseVal fuel (c :: rest) with
        | none => none
        | some (v, r1) =>
          match skipWs r1 with
          | ',' :: r2 => parseArrBody fuel false (v :: acc) r2
          | c2 :: r2 => if c2 = ']' then some (Json.arr (v :: acc).reverse, r2) else none
          | [] => none

end

/-- Python `json.loads`: parse one JSON document, allowing only trailing
whitespace.  Returns `none` where `json.loads` raises `JSONDecodeError`. -/
def jsonLoads (s : String) : Option Json :=
  match parseVal (s.data.length + 1) s.data with
  | some (j, rest) => if (skipWs rest).isEmpty then some j else none
  | none => none

/-- Escape one character for a JSON string literal as `json.dumps` does
(the repository's payloads are ASCII, so `ensure_ascii` handling beyond
control characters is not exercised). -/
def dumpEscChar (c : Char) : List Char :=
  if c = qc then [bsc, qc]
  else if c = bsc then [bsc, bsc]
  else if c = nlc then [bsc, 'n']
  else if c = tbc then [bsc, 't']
  else if c = crc then [bsc, 'r']
  else if c = Char.ofNat 8 then [bsc, 'b']
  else if c = Char.ofNat 12 then [bsc, 'f']
  else [c]

/-- Serialize a string as a JSON string literal. -/
def dumpStr (s : String) : String :=
  String.mk ([qc] ++ (s.data.flatMap dumpEscChar) ++ [qc])

mutual

/-- Python `json.dumps` with its default separators (item separator
a comma and a space, key separator a colon and a space). -/
def dumps : Json → String
  | Json.null => "null"
  | Json.bool true => "true"
  | Json.bool false => "false"
  | Json.num n => toString n
  | Json.str s => dumpStr s
  | Json.arr xs => "[" ++ String.intercalate ", " (dumpsArr xs) ++ "]"
  | Json.obj kvs =>
      String.mk [obc] ++ String.intercalate ", " (dumpsObj kvs) ++ String.mk [cbc]

/-- Serialize the elements of an array. -/
def dumpsArr : List Json → List String
  | [] => []
  | x :: xs => dumps x :: dumpsArr xs

/-- Serialize the members of an object. -/
def dumpsObj : List (String × Json) → List String
  | [] => []
  | (k, v) :: kvs => (dumpStr k ++ ": " ++ dumps v) :: dumpsObj kvs

end

/-! ### The recursive-regex balanced-brace scanner.

The notebooks search free text with `regex.compile` applied to the
recursive pattern "an opening brace, then non-brace characters or
recursively balanced groups, then a closing brace", via `pattern.search`.
`search` tries start positions left to right; at a position holding an
opening brace the pattern matches exactly when the brace depth returns to
zero, and the match ends at the first position where it does. -/

/-- Scan from inside a candidate match, tracking brace depth; returns the
matched span once the depth returns to zero. -/
def braceScan : List Char → Nat → List Char → Option (List Char)
  | [], _, _ => none
  | c :: rest, depth, acc =>
    if c = obc then braceScan rest (depth + 1) (acc ++ [c])
    else if c = cbc then
      if depth ≤ 1 then some (acc ++ [c])
      else braceScan rest (depth - 1) (acc ++ [c])
    else braceScan rest depth (acc ++ [c])

/-- `pattern.search` for the recursive balanced-brace pattern: the
leftmost balanced brace-delimited span, or `none`. -/
def findBalanced : List Char → Option (List Char)
  | [] => none
  | c :: rest =>
    if c = obc then
      match braceScan (c :: rest) 0 [] with
      | some span => some span
      | none => findBalanced rest
    else findBalanced rest

/-! ### Python exceptions. -/

/-- The exceptions the embedded code can raise.  `raise X from e` chains
the root cause into the `cause` field of a `valueError`. -/
inductive PyErr where
  | valueError (msg : String) (cause : Option PyErr) : PyErr
  | keyError (key : String) : PyErr
  | typeError (msg : String) : PyErr

/-- Python `str(e)` on an exception, as interpolated by the f-string
wrappers in the source. -/
def PyErr.str : PyErr → String
  | PyErr.valueError msg _ => msg
  | PyErr.keyError key => sq ++ key ++ sq
  | PyErr.typeError msg => msg

/-! ### The pydantic argument models.

Every `args_model` in the repository (`GetWeatherSchema`, `JumpSchema`,
the ad-hoc greeting model) declares only required fields of type `str`.
We embed such a model as its docstring (the schema `description`) plus
its ordered field list; pydantic validation then demands each declared
field to be present with a string value, ignores extra keys (the pydantic
default), and `model_dump` returns the declared fields in declaration
order. -/

/-- A pydantic `BaseModel` subclass whose fields are all required `str`
fields: docstring (the JSON-schema `description`) and the ordered list of
(field name, field description). -/
structure ArgsModel where
  description : String
  fields : List (String × String)

/-- Pydantic validation of a decoded JSON object against the model:
every declared field must be present with a string value; extra keys are
ignored.  Returns the `model_dump` dict on success. -/
def ArgsModel.validateDict (m : ArgsModel) (d : List (String × Json)) :
    Option (List (String × Json)) :=
  go m.fields
where
  /-- Collect the declared fields in order. -/
  go : List (String × String) → Option (List (String × Json))
    | [] => some []
    | (fname, _) :: rest =>
      match List.lookup fname d with
      | some (Json.str s) => (go rest).map (fun t => (fname, Json.str s) :: t)
      | _ => none

/-- Pydantic `model_validate_json`: decode the JSON text, require a JSON
object, and validate it against the model. -/
def ArgsModel.model_validate_json (m : ArgsModel) (json_string : String) :
    Option (List (String × Json)) :=
  match jsonLoads json_string with
  | some (Json.obj kvs) => m.validateDict kvs
  | _ => none

/-! ### `AgentTool` and the `Tool` decorator. -/

/-- A Python callable as the `Tool` decorator sees it: its `__name__`,
its `__doc__` (with `none` for a missing docstring and `some ""` for an
empty one, so Python truthiness is expressible), its positional parameter
names from `inspect.signature`, and its body, which receives the
validated keyword arguments and returns a string result or raises. -/
structure PyFunc where
  name : String
  doc : Option String
  params : List String
  call : List (String × Json) → Except String String

/-- Python truthiness of `func.__doc__`: false for a missing docstring
and for an empty one. -/
def docTruthy : Option String → Bool
  | none => false
  | some s => !s.isEmpty

/-- `AgentTool`: encapsulates a Python function with pydantic
validation. -/
structure AgentTool where
  func : PyFunc
  args_model : ArgsModel
  name : String
  description : String

/-- `AgentTool.__init__`: the name comes from `func.__name__`, the
description from `func.__doc__` with the schema description as the falsy
fallback. -/
def AgentTool.mkFrom (func : PyFunc) (args_model : ArgsModel) : AgentTool :=
  { func := func
    args_model := args_model
    name := func.name
    description := if docTruthy func.doc then func.doc.getD "" else args_model.description }

/-- `AgentTool.validate_json_args`: `model_validate_json` under a
`try`/`except ValidationError` that converts failure to `False`. -/
def AgentTool.validate_json_args (t : AgentTool) (json_string : String) : Bool :=
  (t.args_model.model_validate_json json_string).isSome

/-- The keyword dict `AgentTool.run` builds before validating: positional
arguments are zipped with the parameter names of the wrapped function and
written over the keyword mapping via `kwargs.update(dict(zip(arg_names,
args)))`; with no positional arguments the keyword mapping is used as
is. -/
def AgentTool.mergedKwargs (t : AgentTool) (args : List Json)
    (kwargs : List (String × Json)) : List (String × Json) :=
  if args.isEmpty then kwargs
  else pyDictUpdate kwargs (pyDictOfPairs (t.func.params.zip args))

/-- `AgentTool.run` with an instrumented call trace: the result, and the
list of validated argument dicts actually passed to the wrapped callable
(empty when the callable was never invoked).  Validation failure and
callable exceptions are converted to `ValueError`s exactly as in the
source; the pydantic error detail interpolated into the first message is
abbreviated to the fixed text `validation error`. -/
def AgentTool.runT (t : AgentTool) (args : List Json)
    (kwargs : List (String × Json)) : Except PyErr String × List (List (String × Json)) :=
  let kwargs := t.mergedKwargs args kwargs
  match t.args_model.validateDict kwargs with
  | none =>
    (Except.error (PyErr.valueError
      ("Argument validation failed for tool " ++ sq ++ t.name ++ sq ++ ": validation error")
      none), [])
  | some validated_args =>
    match t.func.call validated_args with
    | Except.ok r => (Except.ok r, [validated_args])
    | Except.error e =>
      (Except.error (PyErr.valueError
        ("An error occurred during the execution of tool " ++ sq ++ t.name ++ sq ++ ": " ++ e)
        none), [validated_args])

/-- `AgentTool.run` without the instrumentation. -/
def AgentTool.run (t : AgentTool) (args : List Json)
    (kwargs : List (String × Json)) : Except PyErr String :=
  (t.runT args kwargs).1

/-- `check_docstring`: raise `ValueError` when the function has no
(truthy) docstring. -/
def check_docstring (func : PyFunc) : Except PyErr Unit :=
  if !docTruthy func.doc then
    Except.error (PyErr.valueError
      ("Function " ++ sq ++ func.name ++ sq ++ " must have a docstring.") none)
  else Except.ok ()

/-- The `Tool` decorator: `check_docstring`, then wrap the function in an
`AgentTool`. -/
def Tool (func : PyFunc) (args_model : ArgsModel) : Except PyErr AgentTool :=
  match check_docstring func with
  | Except.error e => Except.error e
  | Except.ok _ => Except.ok (AgentTool.mkFrom func args_model)

/-! ### `AgentToolExecutor`. -/

/-- `AgentToolExecutor`: a `dict` from tool name to `AgentTool`. -/
structure AgentToolExecutor where
  tools : List (String × AgentTool)

/-- `AgentToolExecutor.register_tool`, returned as (raised error or unit,
registry after the call): raises `ValueError` and leaves the registry
untouched when the name is already present, inserts otherwise. -/
def AgentToolExecutor.register_tool (ex : AgentToolExecutor) (tool : AgentTool) :
    Except PyErr Unit × AgentToolExecutor :=
  if (ex.tools.lookup tool.name).isSome then
    (Except.error (PyErr.valueError
      ("Tool " ++ sq ++ tool.name ++ sq ++ " is already registered.") none), ex)
  else
    (Except.ok (), ⟨ex.tools ++ [(tool.name, tool)]⟩)

/-- `AgentToolExecutor.execute` with an instrumented call trace (the
validated argument dicts passed to the underlying callable).  Lookup
failure raises directly; everything raised inside the `try` block —
the explicit validation `ValueError` as well as any error from
`AgentTool.run` — is wrapped into
`ValueError(f"Error executing tool ...: ...") from e`, with the root
cause chained in `cause`. -/
def AgentToolExecutor.executeT (ex : AgentToolExecutor) (tool_name tool_args : String) :
    Except PyErr String × List (List (String × Json)) :=
  match ex.tools.lookup tool_name with
  | none =>
    (Except.error (PyErr.valueError
      ("Tool " ++ sq ++ tool_name ++ sq ++ " not found.") none), [])
  | some tool =>
    if tool.validate_json_args tool_args then
      -- `json.loads(tool_args)`: validation success guarantees the text
      -- decodes to a JSON object, so the catch-all branch is unreachable.
      match jsonLoads tool_args with
      | some (Json.obj tool_args_dict) =>
        (match tool.runT [] tool_args_dict with
         | (Except.ok r, calls) => (Except.ok r, calls)
         | (Except.error e, calls) =>
           (Except.error (PyErr.valueError
             ("Error executing tool " ++ sq ++ tool_name ++ sq ++ ": " ++ e.str)
             (some e)), calls))
      | _ =>
        (Except.error (PyErr.typeError "argument unpacking failed") , [])
    else
      let e := PyErr.valueError
        ("Error validating tool " ++ sq ++ tool_name ++ sq ++ " arguments.") none
      (Except.error (PyErr.valueError
        ("Error executing tool " ++ sq ++ tool_name ++ sq ++ ": " ++ e.str)
        (some e)), [])

/-- `AgentToolExecutor.execute` without the instrumentation. -/
def AgentToolExecutor.execute (ex : AgentToolExecutor) (tool_name tool_args : String) :
    Except PyErr String :=
  (ex.executeT tool_name tool_args).1

/-! ### The repository's toy tools. -/

/-- `GetWeatherSchema`: docstring and one required string field. -/
def GetWeatherSchema : ArgsModel :=
  { description := "Get weather information based on location."
    fields := [("location", "Location to get weather for")] }

/-- The `get_weather` callable.  `random.randint(60, 80)` is modelled by
taking the drawn temperature as a parameter. -/
def get_weather_func (temperature : Nat) : PyFunc :=
  { name := "get_weather"
    doc := some "Gets weather information."
    params := ["location"]
    call := fun kwargs =>
      match List.lookup "location" kwargs with
      | some (Json.str location) =>
        Except.ok (location ++ ": " ++ toString temperature ++ "F.")
      | _ => Except.error "get_weather() missing argument: location" }

/-- The decorated `get_weather` `AgentTool` (its docstring is present, so
the `Tool` decorator succeeds and yields exactly this descriptor). -/
def get_weather (temperature : Nat) : AgentTool :=
  AgentTool.mkFrom (get_weather_func temperature) GetWeatherSchema

/-- An executor with `get_weather` registered (the configuration used by
the weather scenarios). -/
def weatherExecutor (temperature : Nat) : AgentToolExecutor :=
  ((AgentToolExecutor.mk []).register_tool (get_weather temperature)).2

/-! ### Conversation turns.

Messages are Python dicts (`role`/`content`), the tool-result dicts the
loop appends (`role`/`tool_call_id`/`name`/`content`), or the response
objects returned by the LM client (`content` plus `tool_calls`). -/

/-- One requested tool invocation inside an assistant response
(`tool.id`, `tool.function.name`, `tool.function.arguments`). -/
structure ToolCall where
  id : String
  name : String
  arguments : String

/-- A conversation turn. -/
inductive Msg where
  | dict (role content : String) : Msg
  | toolResult (tool_call_id name content : String) : Msg
  | assistant (content : String) (tool_calls : List ToolCall) : Msg

/-! ### The structured tool-calling loop Agent
(12-Lesson-Agent-Tool-Execution-Loop).

The LM backend is an external collaborator; a run issues its calls in
sequence, so a backend stub is modelled as the sequence of assistant
responses it returns — a function from the call index to (content,
tool_calls). -/

namespace Agent12

/-- Execute the tool calls of one assistant turn in order, appending one
tool-result dict per successful call to the tool history.  A failing call
stops the batch and re-raises
`ValueError(f"Execution error in tool ...") from e`; the tool results
appended before the failure stay in the history. -/
def execToolCalls (ex : AgentToolExecutor) (th : List Msg) :
    List ToolCall → Option PyErr × List Msg
  | [] => (none, th)
  | tc :: rest =>
    match (ex.executeT tc.name tc.arguments).1 with
    | Except.error e =>
      (some (PyErr.valueError
        ("Execution error in tool " ++ sq ++ tc.name ++ sq ++ ": " ++ e.str)
        (some e)), th)
    | Except.ok res =>
      execToolCalls ex (th ++ [Msg.toolResult tc.id tc.name res]) rest

/-- `Agent.parse_response`: when the response carries tool calls, append
the response and the tool results to the tool history and answer `True`;
otherwise answer `False`.  Returns (raised error if any, the truth value,
the updated tool history). -/
def parse_response (ex : AgentToolExecutor) (response : Msg) (th : List Msg) :
    Option PyErr × Bool × List Msg :=
  match response with
  | Msg.assistant _ tool_calls =>
    if tool_calls.isEmpty then (none, false, th)
    else
      let th := th ++ [response]
      match execToolCalls ex th tool_calls with
      | (some e, th2) => (some e, true, th2)
      | (none, th2) => (none, true, th2)
  | _ => (none, false, th)

/-- Everything one `Agent.run` call produces, plus instrumentation: the
returned value (`Except.ok none` is Python's `None`, returned when the
loop exhausts `max_iterations`), the memory and tool-history fields after
the call, the number of LM calls made, the chat history sent on each LM
call, and the tool-history snapshot at each LM call. -/
structure RunRes where
  result : Except PyErr (Option Msg)
  memory : List Msg
  tool_history : List Msg
  lmCalls : Nat
  requests : List (List Msg)
  snapshots : List (List Msg)

/-- The `for _ in range(self.max_iterations)` loop of `Agent.run`: build
the chat history, call the LM backend, and either execute the requested
tools and continue, or append the final answer to memory, clear the tool
history, and return it. -/
def runLoop (ex : AgentToolExecutor) (backend : Nat → String × List ToolCall)
    (system_message : Msg) : Nat → Nat → List Msg → List Msg → RunRes
  | 0, _, mem, th => ⟨Except.ok none, mem, th, 0, [], []⟩
  | fuel + 1, i, mem, th =>
    let req := system_message :: (mem ++ th)
    let rsp := backend i
    let response := Msg.assistant rsp.1 rsp.2
    match parse_response ex response th with
    | (some e, _, th2) => ⟨Except.error e, mem, th2, 1, [req], [th]⟩
    | (none, true, th2) =>
      let r := runLoop ex backend system_message fuel (i + 1) mem th2
      ⟨r.result, r.memory, r.tool_history, r.lmCalls + 1, req :: r.requests, th :: r.snapshots⟩
    | (none, false, _) =>
      ⟨Except.ok (some response), mem ++ [response], [], 1, [req], [th]⟩

/-- `Agent.run(user_message)`: append the user message to memory, then
loop.  `mem0` and `th0` are the `memory` and `tool_history` instance
fields before the call (both empty on a fresh agent). -/
def run (ex : AgentToolExecutor) (backend : Nat → String × List ToolCall)
    (system_message : Msg) (max_iterations : Nat) (mem0 : List Msg)
    (user_message : Msg) (th0 : List Msg) : RunRes :=
  runLoop ex backend system_message max_iterations 0 (mem0 ++ [user_message]) th0

end Agent12

/-! ### The text-prompt / ReAct Agent (Module 8, lesson 15, part_000).

The LM backend returns plain text here; a backend stub is the sequence of
response contents. -/

namespace ReactAgent

/-- The value `Agent.parse_response` returns for a tool request: the
decoded action dict together with the `args_json` field it adds
(`json.dumps(action_dict["arguments"])`). -/
structure ReactAction where
  dict : List (String × Json)
  args_json : String

/-- The escape normalization both text-prompt interpreters perform:
double-backslash-n to backslash-n, backslash-n to newline,
backslash-quote to quote, double backslash to single backslash, in that
order. -/
def unescape (text : String) : String :=
  pyReplace
    (pyReplace
      (pyReplace
        (pyReplace text (String.mk [bsc, bsc, 'n']) (String.mk [bsc, 'n']))
        (String.mk [bsc, 'n']) (String.mk [nlc]))
      (String.mk [bsc, sqc]) sq)
    (String.mk [bsc, bsc]) (String.mk [bsc])

/-- Reduce doubled curly braces to single ones (the literal-brace
convention of brace-substituted prompt templates). -/
def undoubleBraces (text : String) : String :=
  pyReplace (pyReplace text (String.mk [obc, obc]) (String.mk [obc]))
    (String.mk [cbc, cbc]) (String.mk [cbc])

/-- The full text normalization `Agent.parse_response` applies before
scanning. -/
def preprocess (content : String) : String :=
  undoubleBraces (unescape content)

/-- `Agent.parse_response`: normalize, search for the first balanced
brace span, `json.loads` it (raising
`ValueError("Invalid JSON in action content")` on `JSONDecodeError`),
and attach `args_json`; `Except.ok none` (Python `None`) when no
balanced span exists.  A balanced span can only decode to a JSON object,
so the non-object branch (a `TypeError` in Python) is unreachable;
a decoded object without an `"arguments"` key raises `KeyError`. -/
def parse_response (content : String) : Except PyErr (Option ReactAction) :=
  let message_content := preprocess content
  match findBalanced message_content.data with
  | none => Except.ok none
  | some span =>
    match jsonLoads (String.mk (stripChars span)) with
    | none => Except.error (PyErr.valueError "Invalid JSON in action content" none)
    | some (Json.obj kvs) =>
      match List.lookup "arguments" kvs with
      | none => Except.error (PyErr.keyError "arguments")
      | some args => Except.ok (some ⟨kvs, dumps args⟩)
    | some _ => Except.error (PyErr.typeError "string indices must be integers")

/-- The key under which the executor is addressed:
`action_dict["name"]`. -/
def actionName (a : ReactAction) : Except PyErr String :=
  match List.lookup "name" a.dict with
  | none => Except.error (PyErr.keyError "name")
  | some (Json.str s) => Except.ok s
  | some j => Except.ok (dumps j)

/-- What one loop iteration does with one LM reply. -/
inductive Step where
  | act (name args_json result : String) : Step
  | finish (response : Msg) : Step
  | fail (e : PyErr) : Step

/-- The body of the ReAct `Agent.run` loop for one LM reply: parse the
reply; on an action, execute it through the executor (errors propagate);
otherwise the reply is terminal — when the lowered text contains the
`final answer` marker the content is rewritten to the lowered, stripped
text after the last `final answer:`, else the raw reply is returned. -/
def step (ex : AgentToolExecutor) (content : String) : Step :=
  match parse_response content with
  | Except.error e => Step.fail e
  | Except.ok (some action_dict) =>
    (match actionName action_dict with
     | Except.error e => Step.fail e
     | Except.ok action_name =>
       match ex.execute action_name action_dict.args_json with
       | Except.error e => Step.fail e
       | Except.ok execution_results =>
         Step.act action_name action_dict.args_json execution_results)
  | Except.ok none =>
    if strContains (pyLower content) "final answer" then
      let final_message :=
        pyStrip (String.mk (splitLast "final answer:".data (pyLower content).data))
      Step.finish (Msg.dict "assistant" final_message)
    else
      Step.finish (Msg.assistant content [])

/-- Everything one ReAct `Agent.run` call produces: the returned value
(`Except.ok none` is Python's `None` after `max_iterations` fruitless
iterations), the memory after the call, the instrumented list of
executed actions (name, `args_json`) in execution order, and the number
of LM calls made. -/
structure RunRes where
  result : Except PyErr (Option Msg)
  memory : List Msg
  executed : List (String × String)
  lmCalls : Nat

/-- The `for _ in range(self.max_iterations)` loop of the ReAct
`Agent.run`: call the LM, step on its reply; actions extend the
`react_loop` transcript with the thought and observation and continue;
a terminal reply appends the user task and the response to memory and
returns. -/
def runLoop (ex : AgentToolExecutor) (backend : Nat → String) (task : String) :
    Nat → Nat → String → List Msg → RunRes
  | 0, _, _, mem => ⟨Except.ok none, mem, [], 0⟩
  | fuel + 1, i, react_loop, mem =>
    let content := backend i
    match step ex content with
    | Step.fail e => ⟨Except.error e, mem, [], 1⟩
    | Step.act name args_json res =>
      let r := runLoop ex backend task fuel (i + 1)
        (react_loop ++ content ++ ("Observation: " ++ res)) mem
      ⟨r.result, r.memory, (name, args_json) :: r.executed, r.lmCalls + 1⟩
    | Step.finish response =>
      ⟨Except.ok (some response), mem ++ [Msg.dict "user" task, response], [], 1⟩

/-- `Agent.run(task)` for the ReAct agent. -/
def run (ex : AgentToolExecutor) (backend : Nat → String) (task : String)
    (max_iterations : Nat) (mem0 : List Msg) : RunRes :=
  runLoop ex backend task max_iterations 0 "" mem0

end ReactAgent

/-! ### `parse_nested_json` (13-Lesson-Agent-Tool-Selection-Prompt). -/

/-- The standalone nested-JSON extractor: normalize escapes, reduce
doubled braces, search for the first balanced brace span and `json.loads`
it; a decode error is swallowed (`except ... pass`) and, like the no-span
case, yields `None`. -/
def parse_nested_json (text : String) : Option Json :=
  let text := ReactAgent.undoubleBraces (ReactAgent.unescape text)
  match findBalanced text.data with
  | some m => jsonLoads (String.mk m)
  | none => none

/-! ### Concrete fixtures for the spec's scenarios. -/

/-- The system message of the weather scenarios. -/
def weatherSystem : Msg := Msg.dict "system" "You are a weather assistant."

/-- The user turn of the weather scenarios. -/
def weatherQuestion : Msg := Msg.dict "user" "What is the weather in Virginia?"

/-- The serialized arguments of the stubbed weather tool call. -/
def virginiaArgs : String := "\x7b\"location\": \"Virginia\"\x7d"

/-- The end-to-end scenario backend stub: first response requests
`get_weather(location="Virginia")`, second response is final text. -/
def weatherStubBackend : Nat → String × List ToolCall := fun i =>
  if i = 0 then ("", [⟨"call_1", "get_weather", virginiaArgs⟩])
  else ("It is 70F in Virginia.", [])

/-- A backend stub that requests the weather tool on every turn. -/
def loopingStubBackend : Nat → String × List ToolCall := fun _ =>
  ("", [⟨"id0", "get_weather", virginiaArgs⟩])

/-- A ReAct reply that contains both the literal `Final Answer:` marker
and a balanced JSON action object (the two closing braces separated by a
space so that the doubled-brace reduction leaves them alone). -/
def reactBothContent : String :=
  "Thought: I know. Final Answer: It is nice. \x7b\"name\": \"get_weather\", \"arguments\": \x7b\"location\": \"Virginia\"\x7d \x7d"

/-- A ReAct reply that is a plain final answer. -/
def reactFinalContent : String := "Final Answer: It is 70F in Virginia."

/-- The ReAct backend stub for the precedence scenario. -/
def reactStubBackend : Nat → String := fun i =>
  if i = 0 then reactBothContent else reactFinalContent

/-- The spec's first extractor input: prose around a compact nested JSON
object. -/
def nestedJsonInput : String :=
  "Here is the result: \x7b\"name\":\"greet\",\"arguments\":\x7b\"person\":\"Roberto\"\x7d\x7d Thanks"

/-- The spec's second extractor input: doubled braces and escaped
newlines. -/
def doubledBraceInput : String :=
  "\x7b\x7b\\n \"name\": \"greet\",\\n \"arguments\": \"Roberto\"\\n\x7d\x7d"

/-- The spec's third extractor input: no braces at all. -/
def noBraceInput : String := "Sure, happy to help with that. No tool needed."

/-- `execute("get_weather", ...)` arguments with the required key. -/
def parisArgs : String := "\x7b\"location\": \"Paris\"\x7d"

/-- `execute("get_weather", ...)` arguments with a wrong key (the
required `location` field is missing). -/
def parisBadArgs : String := "\x7b\"loc\": \"Paris\"\x7d"

/-! ## Helper lemmas. -/

/-- A list is a Boolean prefix of itself followed by anything. -/
theorem isPrefixOf_self_append (l t : List Char) : l.isPrefixOf (l ++ t) = true := by
  induction l with
  | nil => simp [List.isPrefixOf]
  | cons c rest ih => simp [List.isPrefixOf, ih]

/-- `infixOf` holds on a list that starts with the needle. -/
theorem infixOf_self_append (l t : List Char) : infixOf l (l ++ t) = true := by
  cases l with
  | nil =>
    cases t with
    | nil => simp [infixOf, List.isEmpty]
    | cons c r => simp [infixOf, List.isPrefixOf]
  | cons c rest =>
    simp only [List.cons_append, infixOf, Bool.or_eq_true]
    exact Or.inl (isPrefixOf_self_append (c :: rest) t)

/-- Looking a key up after appending a single binding. -/
theorem lookup_append_single {α : Type} (l : List (String × α)) (k : String) (v : α)
    (n : String) :
    List.lookup n (l ++ [(k, v)]) =
      match List.lookup n l with
      | some u => some u
      | none => if n = k then some v else none := by
  induction l with
  | nil =>
    by_cases h : n = k
    · subst h
      simp [List.lookup]
    · have hb : (n == k) = false := by simp [h]
      simp [List.lookup, hb, h]
  | cons kv rest ih =>
    obtain ⟨k', v'⟩ := kv
    by_cases h : n = k'
    · have hb : (n == k') = true := by simp [h]
      simp [List.lookup, hb]
    · have hb : (n == k') = false := by simp [h]
      simp only [List.cons_append, List.lookup, hb]
      exact ih

/-- `pySet` makes the key it wrote look up to the written value. -/
theorem lookup_pySet_self {α : Type} (d : List (String × α)) (k : String) (v : α) :
    List.lookup k (pySet d k v) = some v := by
  induction d with
  | nil => simp [pySet, List.lookup]
  | cons kv rest ih =>
    obtain ⟨k', v'⟩ := kv
    by_cases h : k' = k
    · subst h
      simp [pySet, List.lookup]
    · have hb : (k == k') = false := by
        simp only [beq_eq_false_iff_ne, ne_eq]
        exact fun he => h he.symm
      simp [pySet, h, List.lookup, hb, ih]

/-- `pySet` leaves every other key's lookup unchanged. -/
theorem lookup_pySet_ne {α : Type} (d : List (String × α)) (k : String) (v : α)
    (n : String) (hn : n ≠ k) :
    List.lookup n (pySet d k v) = List.lookup n d := by
  induction d with
  | nil =>
    have hb : (n == k) = false := by simp [hn]
    simp [pySet, List.lookup, hb]
  | cons kv rest ih =>
    obtain ⟨k', v'⟩ := kv
    by_cases h : k' = k
    · subst h
      have hb : (n == k') = false := by simp [hn]
      simp [pySet, List.lookup, hb]
    · by_cases h2 : n = k'
      · have hb : (n == k') = true := by simp [h2]
        simp [pySet, h, List.lookup, hb]
      · have hb : (n == k') = false := by simp [h2]
        simp [pySet, h, List.lookup, hb, ih]

/-- Writing an absent key with `pySet` appends the binding. -/
theorem pySet_append_of_absent {α : Type} (d : List (String × α)) (k : String) (v : α)
    (h : List.lookup k d = none) : pySet d k v = d ++ [(k, v)] := by
  induction d with
  | nil => simp [pySet]
  | cons kv rest ih =>
    obtain ⟨k', v'⟩ := kv
    by_cases hk : k' = k
    · subst hk
      simp [List.lookup] at h
    · have hb : (k == k') = false := by
        simp only [beq_eq_false_iff_ne, ne_eq]
        exact fun he => hk he.symm
      simp only [pySet, hk, if_false, List.cons_append, List.cons.injEq, true_and]
      apply ih
      simpa [List.lookup, hb] using h

/-- Lookup through a fold of `pySet` operations: the written entries take
priority over the accumulator. -/
theorem lookup_foldl_pySet {α : Type} (d : List (String × α)) :
    ∀ (acc : List (String × α)) (p : String),
      List.lookup p (d.foldl (fun a kv => pySet a kv.1 kv.2) acc) =
        match List.lookup p (d.foldl (fun a kv => pySet a kv.1 kv.2) []) with
        | some v => some v
        | none => List.lookup p acc := by
  induction d with
  | nil => intro acc p; simp [List.lookup]
  | cons kv rest ih =>
    intro acc p
    obtain ⟨k, v⟩ := kv
    simp only [List.foldl_cons]
    rw [ih (pySet acc k v) p, ih (pySet [] k v) p]
    cases hrest : List.lookup p (rest.foldl (fun a kv => pySet a kv.1 kv.2) []) with
    | some u => simp
    | none =>
      simp only []
      by_cases hp : p = k
      · subst hp
        rw [lookup_pySet_self, lookup_pySet_self]
      · rw [lookup_pySet_ne _ _ _ _ hp, lookup_pySet_ne _ _ _ _ hp]
        simp [List.lookup]

/-- Folding `pySet` over fresh, pairwise-distinct bindings appends them. -/
theorem foldl_pySet_eq_append {α : Type} (l : List (String × α)) :
    ∀ (acc : List (String × α)),
      (∀ kv ∈ l, List.lookup kv.1 acc = none) →
      (l.map Prod.fst).Nodup →
      l.foldl (fun a kv => pySet a kv.1 kv.2) acc = acc ++ l := by
  induction l with
  | nil => intro acc _ _; simp
  | cons kv rest ih =>
    intro acc habs hnd
    obtain ⟨k, v⟩ := kv
    simp only [List.foldl_cons]
    rw [pySet_append_of_absent acc k v (habs (k, v) (by simp))]
    rw [ih (acc ++ [(k, v)]) ?fresh ?nd]
    · simp
    case fresh =>
      intro kv2 hkv2
      rw [lookup_append_single]
      rw [habs kv2 (by simp [hkv2])]
      simp only [List.map_cons, List.nodup_cons] at hnd
      have : kv2.1 ≠ k := by
        intro he
        exact hnd.1 (he ▸ List.mem_map_of_mem Prod.fst hkv2)
      simp [this]
    case nd =>
      simp only [List.map_cons, List.nodup_cons] at hnd
      exact hnd.2

/-- `pyDictOfPairs` is the identity on a pair list with distinct keys. -/
theorem pyDictOfPairs_eq_self {α : Type} (l : List (String × α))
    (hnd : (l.map Prod.fst).Nodup) : pyDictOfPairs l = l := by
  have := foldl_pySet_eq_append l [] (by intro kv _; simp [List.lookup]) hnd
  simpa [pyDictOfPairs] using this

/-! ## Claim theorems. -/

/-- C6: evaluation of the nested-JSON extractor on the spec's three
inputs.  The doubled-brace input is normalized to
`{"name": "greet", "arguments": "Roberto"}` and brace-free text yields
no action, exactly as claimed; but on the compact nested input the code
does NOT return the full `{"name", "arguments"}` object: the
doubled-brace reduction (applied before scanning) collapses the adjacent
closing braces `}}` of the nested object to a single `}`, the outer
group becomes unbalanced, and the extractor returns the inner
`{"person": "Roberto"}` instead — the code defeats its own documented
purpose ("supports nested structures") on this input. -/
theorem parse_nested_json_eval :
    parse_nested_json nestedJsonInput
        = some (Json.obj [("person", Json.str "Roberto")]) ∧
    parse_nested_json doubledBraceInput
        = some (Json.obj [("name", Json.str "greet"), ("arguments", Json.str "Roberto")]) ∧
    parse_nested_json noBraceInput = none ∧
    parse_nested_json nestedJsonInput
        ≠ some (Json.obj
            [("name", Json.str "greet"),
             ("arguments", Json.obj [("person", Json.str "Roberto")])]) := by
  refine ⟨rfl, rfl, rfl, ?_⟩
  intro h
  rw [show parse_nested_json nestedJsonInput
        = some (Json.obj [("person", Json.str "Roberto")]) from rfl] at h
  simp at h

/-- C7: for every registry state and tool, registering a name that is
already present raises the duplicate-registration `ValueError` and
leaves the registry unchanged, while registering a fresh name inserts
the descriptor (and changes no other name's binding). -/
theorem register_tool_spec (ex : AgentToolExecutor) (t : AgentTool) :
    ((ex.tools.lookup t.name).isSome = true →
      (ex.register_tool t).2 = ex ∧
      (ex.register_tool t).1 = Except.error (PyErr.valueError
        ("Tool " ++ sq ++ t.name ++ sq ++ " is already registered.") none)) ∧
    (ex.tools.lookup t.name = none →
      (ex.register_tool t).1 = Except.ok () ∧
      (ex.register_tool t).2.tools.lookup t.name = some t ∧
      ∀ n, n ≠ t.name → (ex.register_tool t).2.tools.lookup n = ex.tools.lookup n) := by
  constructor
  · intro h
    simp [AgentToolExecutor.register_tool, h]
  · intro h
    have hs : (ex.tools.lookup t.name).isSome = false := by simp [h]
    refine ⟨by simp [AgentToolExecutor.register_tool, hs], ?_, ?_⟩
    · simp only [AgentToolExecutor.register_tool, hs, Bool.false_eq_true, if_false]
      rw [lookup_append_single, h]
      simp
    · intro n hn
      simp only [AgentToolExecutor.register_tool, hs, Bool.false_eq_true, if_false]
      rw [lookup_append_single]
      cases hl : ex.tools.lookup n with
      | some u => simp
      | none => simp [hn]

/-- Witness for C7: registering `get_weather` into an empty executor
inserts it; registering it again into `weatherExecutor` fails and leaves
the executor unchanged. -/
theorem register_tool_spec_witness :
    (((AgentToolExecutor.mk []).register_tool (get_weather 70)).2.tools.lookup
        "get_weather" = some (get_weather 70)) ∧
    ((weatherExecutor 70).register_tool (get_weather 70)).2 = weatherExecutor 70 := by
  constructor
  · exact ((register_tool_spec (AgentToolExecutor.mk []) (get_weather 70)).2 rfl).2.1
  · exact ((register_tool_spec (weatherExecutor 70) (get_weather 70)).1 rfl).1

/-- C9: the `Tool` decorator fails with the missing-docstring
`ValueError` when the wrapped callable has no docstring, succeeds (with
the docstring as the description) when a nonempty docstring is present,
and never yields a descriptor for an undocumented callable.  Python
truthiness makes an empty docstring count as absent, so "a docstring is
present" is read as a nonempty docstring. -/
theorem tool_requires_docstring (f : PyFunc) (m : ArgsModel) :
    (f.doc = none → Tool f m = Except.error (PyErr.valueError
      ("Function " ++ sq ++ f.name ++ sq ++ " must have a docstring.") none)) ∧
    (∀ s, f.doc = some s → s ≠ "" →
      Tool f m = Except.ok (AgentTool.mkFrom f m) ∧
      (AgentTool.mkFrom f m).description = s) ∧
    (∀ t, Tool f m = Except.ok t → f.doc ≠ none ∧ f.doc ≠ some "") := by
  refine ⟨?_, ?_, ?_⟩
  · intro h
    simp [Tool, check_docstring, docTruthy, h]
  · intro s hs hne
    have hemp : s.isEmpty = false := by
      cases he : s.isEmpty
      · rfl
      · exact absurd ((String.isEmpty_iff s).mp he) hne
    constructor
    · simp [Tool, check_docstring, docTruthy, hs, hemp]
    · simp [AgentTool.mkFrom, docTruthy, hs, hemp]
  · intro t h
    cases hd : f.doc with
    | none => simp [Tool, check_docstring, docTruthy, hd] at h
    | some s =>
      refine ⟨by simp [hd], ?_⟩
      intro he
      have hs : s = "" := Option.some.inj he
      subst hs
      have hemp : ("" : String).isEmpty = true := rfl
      simp [Tool, check_docstring, docTruthy, hd, hemp] at h

/-- Witness for C9: the documented `get_weather` callable yields its
descriptor; the same callable with its docstring removed is rejected. -/
theorem tool_requires_docstring_witness :
    Tool (get_weather_func 70) GetWeatherSchema = Except.ok (get_weather 70) ∧
    Tool { get_weather_func 70 with doc := none } GetWeatherSchema
      = Except.error (PyErr.valueError
          ("Function " ++ sq ++ "get_weather" ++ sq ++ " must have a docstring.") none) := by
  constructor
  · exact ((tool_requires_docstring (get_weather_func 70) GetWeatherSchema).2.1
      "Gets weather information." rfl (by decide)).1
  · exact (tool_requires_docstring { get_weather_func 70 with doc := none }
      GetWeatherSchema).1 rfl

/-- C8: for the registered `get_weather` tool (whatever temperature the
modelled `random.randint` draws), executing with
`{"location": "Paris"}` returns a result containing `Paris`, while
executing with `{"loc": "Paris"}` (the required `location` field
missing) raises the execute-wrapper `ValueError` whose chained cause is
the argument-validation `ValueError`, and the wrapped callable is never
invoked (the instrumented call trace is empty).  The source raises plain
`ValueError`s for what the spec names `ToolExecutionError` and
`ArgumentValidationError`; the wrapping (`raise ... from e`) is the
`cause` chain. -/
theorem execute_weather_validation (temperature : Nat) :
    (∃ s, ((weatherExecutor temperature).executeT "get_weather" parisArgs).1
        = Except.ok s ∧ strContains s "Paris" = true) ∧
    ((weatherExecutor temperature).executeT "get_weather" parisBadArgs).1
      = Except.error (PyErr.valueError
          ("Error executing tool " ++ sq ++ "get_weather" ++ sq ++ ": "
            ++ "Error validating tool " ++ sq ++ "get_weather" ++ sq ++ " arguments.")
          (some (PyErr.valueError
            ("Error validating tool " ++ sq ++ "get_weather" ++ sq ++ " arguments.")
            none))) ∧
    ((weatherExecutor temperature).executeT "get_weather" parisBadArgs).2 = [] := by
  refine ⟨⟨"Paris" ++ (": " ++ toString temperature ++ "F."), rfl, ?_⟩, rfl, rfl⟩
  unfold strContains
  rw [String.data_append]
  exact infixOf_self_append "Paris".data (": " ++ toString temperature ++ "F.").data

/-- C10: in `AgentTool.run`, a positional value silently overrides a
keyword value for the same parameter: positional arguments are zipped
with the wrapped function's parameter names and written over the keyword
mapping (`kwargs.update(dict(zip(arg_names, args)))`), so validation and
the callable observe the positional value and no duplicate-argument
error is raised.  The Nodup hypothesis reflects that Python signature
parameter names are pairwise distinct.  The second conjunct exercises
this on `get_weather`: whatever keyword value is supplied for
`location`, the positional `"Madrid"` wins and the call succeeds. -/
theorem positional_overrides_keyword :
    (∀ (t : AgentTool) (args : List Json) (kwargs : List (String × Json))
       (p : String) (v : Json),
       args ≠ [] →
       ((t.func.params.zip args).map Prod.fst).Nodup →
       List.lookup p (t.func.params.zip args) = some v →
       List.lookup p (t.mergedKwargs args kwargs) = some v) ∧
    (∀ (temperature : Nat) (w : Json),
       (get_weather temperature).runT [Json.str "Madrid"] [("location", w)]
         = (Except.ok ("Madrid" ++ (": " ++ toString temperature ++ "F.")),
            [[("location", Json.str "Madrid")]])) := by
  constructor
  · intro t args kwargs p v hargs hnd hlook
    unfold AgentTool.mergedKwargs
    have hne : args.isEmpty = false := by
      cases args
      · exact absurd rfl hargs
      · rfl
    rw [hne]
    simp only [Bool.false_eq_true, if_false]
    rw [pyDictOfPairs_eq_self _ hnd]
    unfold pyDictUpdate
    rw [lookup_foldl_pySet]
    have : pyDictOfPairs (t.func.params.zip args) = t.func.params.zip args :=
      pyDictOfPairs_eq_self _ hnd
    unfold pyDictOfPairs at this
    rw [this, hlook]
  · intro temperature w
    rfl

/-- Witness for C10: the general override property applied to
`get_weather` with positional `"Madrid"` and keyword `"Paris"` for the
same `location` parameter. -/
theorem positional_overrides_keyword_witness :
    List.lookup "location"
      ((get_weather 70).mergedKwargs [Json.str "Madrid"]
        [("location", Json.str "Paris")]) = some (Json.str "Madrid") := by
  exact positional_overrides_keyword.1 (get_weather 70) [Json.str "Madrid"]
    [("location", Json.str "Paris")] "location" (Json.str "Madrid")
    (List.cons_ne_nil _ _) (by decide) rfl

/-- C4: in the text-prompt interpreter (`Agent.parse_response` of the
ReAct lesson), a balanced brace span that fails to decode as JSON raises
the malformed-action `ValueError` — the turn is not silently treated as
a final answer — while an assistant text with no balanced span at all
reports no action, and the loop body then treats the entire text as a
final answer (a `finish` step, never an error). -/
theorem text_protocol_action_errors :
    (∀ content, findBalanced (ReactAgent.preprocess content).data = none →
      ReactAgent.parse_response content = Except.ok none ∧
      ∀ ex, ∃ resp, ReactAgent.step ex content = ReactAgent.Step.finish resp) ∧
    (∀ content span, findBalanced (ReactAgent.preprocess content).data = some span →
      jsonLoads (String.mk (stripChars span)) = none →
      ReactAgent.parse_response content
        = Except.error (PyErr.valueError "Invalid JSON in action content" none)) := by
  constructor
  · intro content h
    have hp : ReactAgent.parse_response content = Except.ok none := by
      simp only [ReactAgent.parse_response]
      rw [h]
    refine ⟨hp, ?_⟩
    intro ex
    cases hm : strContains (pyLower content) "final answer"
    · exact ⟨Msg.assistant content [], by simp [ReactAgent.step, hp, hm]⟩
    · exact ⟨Msg.dict "assistant"
        (pyStrip (String.mk (splitLast "final answer:".data (pyLower content).data))),
        by simp [ReactAgent.step, hp, hm]⟩
  · intro content span h hj
    simp only [ReactAgent.parse_response, h, hj]

/-- Counterexample for C3: a ReAct reply that contains the literal
`Final Answer:` marker together with a balanced JSON action object is
NOT treated as terminal: the interpreter finds the JSON first and the
tool is executed for that turn (step `act`, and the run's instrumented
trace records the execution). -/
theorem react_final_answer_counterexample :
    strContains reactBothContent "Final Answer:" = true ∧
    ReactAgent.step (weatherExecutor 70) reactBothContent
      = ReactAgent.Step.act "get_weather" virginiaArgs "Virginia: 70F." ∧
    (ReactAgent.run (weatherExecutor 70) reactStubBackend
        "What is the weather in Virginia?" 10 []).executed
      = [("get_weather", virginiaArgs)] :=
  ⟨rfl, rfl, rfl⟩

/-- C3 (amended): the `final answer` marker (matched case-insensitively
on the lowered text) is terminal only when JSON scanning finds no
balanced action object in the reply; JSON scanning takes precedence over
the marker, so a reply that parses to an action never finishes the run
on that turn.  When the marker wins, the returned final answer is the
lowered, stripped text after the last `final answer:`. -/
theorem react_marker_terminal_without_action :
    (∀ content, ReactAgent.parse_response content = Except.ok none →
      strContains (pyLower content) "final answer" = true →
      ∀ ex, ReactAgent.step ex content = ReactAgent.Step.finish (Msg.dict "assistant"
        (pyStrip (String.mk (splitLast "final answer:".data (pyLower content).data))))) ∧
    (∀ content a ex resp, ReactAgent.parse_response content = Except.ok (some a) →
      ReactAgent.step ex content ≠ ReactAgent.Step.finish resp) := by
  constructor
  · intro content hp hm ex
    simp [ReactAgent.step, hp, hm]
  · intro content a ex resp hp
    cases h2 : ReactAgent.actionName a with
    | error e => simp [ReactAgent.step, hp, h2]
    | ok n =>
      cases h3 : ex.execute n a.args_json with
      | error e => simp [ReactAgent.step, hp, h2, h3]
      | ok r => simp [ReactAgent.step, hp, h2, h3]

/-- Witness for C3 (amended): a reply with the marker and no JSON
action finishes with the lowered text after the marker; the
marker-plus-action reply never finishes. -/
theorem react_marker_terminal_without_action_witness :
    ReactAgent.step (weatherExecutor 70) reactFinalContent
      = ReactAgent.Step.finish (Msg.dict "assistant" "it is 70f in virginia.") ∧
    ReactAgent.step (weatherExecutor 70) reactBothContent
      ≠ ReactAgent.Step.finish (Msg.dict "assistant" "it is nice.") := by
  constructor
  · exact react_marker_terminal_without_action.1 reactFinalContent rfl rfl
      (weatherExecutor 70)
  · exact react_marker_terminal_without_action.2 reactBothContent
      ⟨[("name", Json.str "get_weather"),
        ("arguments", Json.obj [("location", Json.str "Virginia")])], virginiaArgs⟩
      (weatherExecutor 70) (Msg.dict "assistant" "it is nice.") rfl

/-- Witness for C4: brace-free text reports no action; a balanced span
that is not JSON raises the malformed-action error. -/
theorem text_protocol_action_errors_witness :
    ReactAgent.parse_response noBraceInput = Except.ok none ∧
    ReactAgent.parse_response "\x7bnot json\x7d"
      = Except.error (PyErr.valueError "Invalid JSON in action content" none) := by
  constructor
  · exact (text_protocol_action_errors.1 noBraceInput rfl).1
  · exact text_protocol_action_errors.2 "\x7bnot json\x7d" "\x7bnot json\x7d".data rfl rfl

/-- The loop of the structured agent performs at most one LM call per
iteration of `range(max_iterations)`. -/
theorem runLoop_lmCalls_le (ex : AgentToolExecutor)
    (backend : Nat → String × List ToolCall) (sys : Msg) :
    ∀ (fuel i : Nat) (mem th : List Msg),
      (Agent12.runLoop ex backend sys fuel i mem th).lmCalls ≤ fuel := by
  intro fuel
  induction fuel with
  | zero => intro i mem th; simp [Agent12.runLoop]
  | succ fuel ih =>
    intro i mem th
    rcases hp : Agent12.parse_response ex (Msg.assistant (backend i).1 (backend i).2) th
      with ⟨oe, b, th2⟩
    cases oe with
    | some e => simp [Agent12.runLoop, hp]
    | none =>
      cases b with
      | true =>
        simp only [Agent12.runLoop, hp]
        exact Nat.succ_le_succ (ih (i + 1) mem th2)
      | false => simp [Agent12.runLoop, hp]

/-- C1: for every backend stub and configuration, one `Agent.run` call
performs at most `max_iterations` LM calls (and, being a bounded
`for`-loop, always terminates — the embedding is structurally recursive
on the remaining iteration count).  With `max_iterations = 3` and a
backend that requests the weather tool on every turn, the run makes
exactly 3 LM calls and returns Python `None` (`Except.ok none`), the
distinguished budget-exhaustion outcome, which no final-answer return
(`Except.ok (some _)`) and no tool result can be confused with. -/
theorem orchestrator_budget_bound :
    (∀ (ex : AgentToolExecutor) (backend : Nat → String × List ToolCall)
       (sys : Msg) (N : Nat) (mem0 : List Msg) (user : Msg) (th0 : List Msg),
       (Agent12.run ex backend sys N mem0 user th0).lmCalls ≤ N) ∧
    (Agent12.run (weatherExecutor 70) loopingStubBackend weatherSystem 3 []
        weatherQuestion []).lmCalls = 3 ∧
    (Agent12.run (weatherExecutor 70) loopingStubBackend weatherSystem 3 []
        weatherQuestion []).result = Except.ok none := by
  refine ⟨?_, rfl, rfl⟩
  intro ex backend sys N mem0 user th0
  exact runLoop_lmCalls_le ex backend sys N 0 (mem0 ++ [user]) th0

/-- Counterexample for C2: in the end-to-end weather scenario the
Orchestrator does return the final text, but the Conversation Memory
afterwards contains exactly TWO turns (the user turn and the final
assistant turn), not four: the assistant tool-request turn and the
tool-result turn live only in the transient tool-history buffer, which
is cleared before `run` returns. -/
theorem weather_scenario_memory_counterexample :
    (Agent12.run (weatherExecutor 70) weatherStubBackend weatherSystem 10 []
        weatherQuestion []).result
      = Except.ok (some (Msg.assistant "It is 70F in Virginia." [])) ∧
    (Agent12.run (weatherExecutor 70) weatherStubBackend weatherSystem 10 []
        weatherQuestion []).memory.length = 2 ∧
    ¬ (Agent12.run (weatherExecutor 70) weatherStubBackend weatherSystem 10 []
        weatherQuestion []).memory.length = 4 :=
  ⟨rfl, rfl, by decide⟩

/-- C2 (amended): in the end-to-end weather scenario the Orchestrator
returns the final text; the four turns — user, assistant tool-request,
tool-result, final assistant — all flow through the conversation in that
order (the second LM request is exactly system, user, tool-request,
tool-result), but after the run the Memory holds exactly the user turn
and the final assistant turn, and the tool-history buffer has been
cleared. -/
theorem weather_scenario_trace :
    (Agent12.run (weatherExecutor 70) weatherStubBackend weatherSystem 10 []
        weatherQuestion []).result
      = Except.ok (some (Msg.assistant "It is 70F in Virginia." [])) ∧
    (Agent12.run (weatherExecutor 70) weatherStubBackend weatherSystem 10 []
        weatherQuestion []).memory
      = [weatherQuestion, Msg.assistant "It is 70F in Virginia." []] ∧
    (Agent12.run (weatherExecutor 70) weatherStubBackend weatherSystem 10 []
        weatherQuestion []).tool_history = [] ∧
    (Agent12.run (weatherExecutor 70) weatherStubBackend weatherSystem 10 []
        weatherQuestion []).lmCalls = 2 ∧
    (Agent12.run (weatherExecutor 70) weatherStubBackend weatherSystem 10 []
        weatherQuestion []).requests
      = [[weatherSystem, weatherQuestion],
         [weatherSystem, weatherQuestion,
          Msg.assistant "" [⟨"call_1", "get_weather", virginiaArgs⟩],
          Msg.toolResult "call_1" "get_weather" "Virginia: 70F."]] :=
  ⟨rfl, rfl, rfl, rfl, rfl⟩

/-- Executing a batch of tool calls only ever appends to the tool
history. -/
theorem execToolCalls_prefix (ex : AgentToolExecutor) :
    ∀ (tcs : List ToolCall) (th : List Msg),
      th <+: (Agent12.execToolCalls ex th tcs).2 := by
  intro tcs
  induction tcs with
  | nil => intro th; simp [Agent12.execToolCalls]
  | cons tc rest ih =>
    intro th
    cases h : (ex.executeT tc.name tc.arguments).1 with
    | error e => simp [Agent12.execToolCalls, h]
    | ok res =>
      simp only [Agent12.execToolCalls, h]
      exact List.IsPrefix.trans (List.prefix_append th _) (ih _)

/-- `Agent.parse_response` only ever appends to the tool history. -/
theorem parse_response_prefix (ex : AgentToolExecutor) (response : Msg)
    (th : List Msg) : th <+: (Agent12.parse_response ex response th).2.2 := by
  cases response with
  | dict role content => simp [Agent12.parse_response]
  | toolResult a b c => simp [Agent12.parse_response]
  | assistant content tool_calls =>
    by_cases he : tool_calls.isEmpty
    · simp [Agent12.parse_response, he]
    · have hpre := execToolCalls_prefix ex tool_calls
        (th ++ [Msg.assistant content tool_calls])
      have hth : th <+: (Agent12.execToolCalls ex
          (th ++ [Msg.assistant content tool_calls]) tool_calls).2 :=
        List.IsPrefix.trans (List.prefix_append th _) hpre
      rcases hc : Agent12.execToolCalls ex
          (th ++ [Msg.assistant content tool_calls]) tool_calls with ⟨oe, th2⟩
      rw [hc] at hth
      cases oe with
      | some e => simpa [Agent12.parse_response, he, hc] using hth
      | none => simpa [Agent12.parse_response, he, hc] using hth

/-- The loop invariant behind C5: when a run of the structured agent
returns a final answer, the tool history has been reset to empty and the
memory extended by exactly that answer; and the tool-history snapshots
taken at successive LM calls only ever grow (each is a prefix of the
next), starting from the history the loop was entered with. -/
theorem runLoop_history_spec (ex : AgentToolExecutor)
    (backend : Nat → String × List ToolCall) (sys : Msg) :
    ∀ (fuel i : Nat) (mem th : List Msg),
      (∀ m, (Agent12.runLoop ex backend sys fuel i mem th).result
          = Except.ok (some m) →
        (Agent12.runLoop ex backend sys fuel i mem th).tool_history = [] ∧
        (Agent12.runLoop ex backend sys fuel i mem th).memory = mem ++ [m]) ∧
      List.Chain' (fun a b => a <+: b)
        (Agent12.runLoop ex backend sys fuel i mem th).snapshots ∧
      ((Agent12.runLoop ex backend sys fuel i mem th).snapshots.head? = some th ∨
        (Agent12.runLoop ex backend sys fuel i mem th).snapshots = []) := by
  intro fuel
  induction fuel with
  | zero =>
    intro i mem th
    refine ⟨?_, ?_, ?_⟩
    · intro m h
      simp [Agent12.runLoop] at h
    · simp [Agent12.runLoop]
    · right; simp [Agent12.runLoop]
  | succ fuel ih =>
    intro i mem th
    have hth2 := parse_response_prefix ex (Msg.assistant (backend i).1 (backend i).2) th
    rcases hp : Agent12.parse_response ex (Msg.assistant (backend i).1 (backend i).2) th
      with ⟨oe, b, th2⟩
    rw [hp] at hth2
    cases oe with
    | some e =>
      refine ⟨?_, ?_, ?_⟩
      · intro m h
        simp [Agent12.runLoop, hp] at h
      · simp [Agent12.runLoop, hp]
      · left; simp [Agent12.runLoop, hp]
    | none =>
      cases b with
      | true =>
        obtain ⟨ih1, ih2, ih3⟩ := ih (i + 1) mem th2
        have hth3 : th <+: th2 := hth2
        refine ⟨?_, ?_, ?_⟩
        · intro m h
          simp only [Agent12.runLoop, hp] at h ⊢
          exact ih1 m h
        · simp only [Agent12.runLoop, hp]
          rw [List.chain'_cons']
          refine ⟨?_, ih2⟩
          intro y hy
          cases ih3 with
          | inl hhead =>
            rw [hhead] at hy
            simp only [Option.mem_def, Option.some.injEq] at hy
            exact hy ▸ hth3
          | inr hemp =>
            rw [hemp] at hy
            simp at hy
        · left; simp [Agent12.runLoop, hp]
      | false =>
        refine ⟨?_, ?_, ?_⟩
        · intro m h
          have hres : (Agent12.runLoop ex backend sys (fuel + 1) i mem th).result
              = Except.ok (some (Msg.assistant (backend i).1 (backend i).2)) := by
            simp [Agent12.runLoop, hp]
          rw [hres] at h
          have hm : Msg.assistant (backend i).1 (backend i).2 = m := by
            simpa using h
          constructor
          · simp [Agent12.runLoop, hp]
          · have hmem : (Agent12.runLoop ex backend sys (fuel + 1) i mem th).memory
                = mem ++ [Msg.assistant (backend i).1 (backend i).2] := by
              simp [Agent12.runLoop, hp]
            rw [hmem, hm]
        · simp [Agent12.runLoop, hp]
        · left; simp [Agent12.runLoop, hp]

/-- C5: tool-request and tool-result entries accumulate in the transient
tool-history buffer across successive tool iterations of a run — the
snapshot at each LM call is a prefix of the snapshot at the next, never
cleared mid-loop — and exactly the final-answer exit appends the answer
to Memory and clears the buffer before returning; on budget exhaustion
the buffer is NOT cleared (the looping scenario ends with a nonempty
buffer). -/
theorem tool_history_accumulate_clear_on_final :
    (∀ (ex : AgentToolExecutor) (backend : Nat → String × List ToolCall)
       (sys : Msg) (N : Nat) (mem0 : List Msg) (user : Msg) (th0 : List Msg),
       (∀ m, (Agent12.run ex backend sys N mem0 user th0).result
           = Except.ok (some m) →
         (Agent12.run ex backend sys N mem0 user th0).tool_history = [] ∧
         (Agent12.run ex backend sys N mem0 user th0).memory = mem0 ++ [user, m]) ∧
       List.Chain' (fun a b => a <+: b)
         (Agent12.run ex backend sys N mem0 user th0).snapshots ∧
       ((Agent12.run ex backend sys N mem0 user th0).snapshots.head? = some th0 ∨
         (Agent12.run ex backend sys N mem0 user th0).snapshots = [])) ∧
    (Agent12.run (weatherExecutor 70) loopingStubBackend weatherSystem 3 []
        weatherQuestion []).result = Except.ok none ∧
    (Agent12.run (weatherExecutor 70) loopingStubBackend weatherSystem 3 []
        weatherQuestion []).tool_history ≠ [] := by
  refine ⟨?_, rfl, ?_⟩
  · intro ex backend sys N mem0 user th0
    obtain ⟨h1, h2, h3⟩ := runLoop_history_spec ex backend sys N 0 (mem0 ++ [user]) th0
    refine ⟨?_, h2, h3⟩
    intro m hm
    obtain ⟨ha, hb⟩ := h1 m hm
    refine ⟨ha, ?_⟩
    show (Agent12.runLoop ex backend sys N 0 (mem0 ++ [user]) th0).memory
      = mem0 ++ [user, m]
    rw [hb, List.append_assoc]
    rfl
  · intro h
    exact absurd (congrArg List.length h) (by decide)

/-- Witness for C5: in the end-to-end weather scenario the final answer
leaves an empty tool history and a memory of exactly the user turn plus
the final answer. -/
theorem tool_history_accumulate_clear_on_final_witness :
    (Agent12.run (weatherExecutor 70) weatherStubBackend weatherSystem 10 []
        weatherQuestion []).tool_history = [] ∧
    (Agent12.run (weatherExecutor 70) weatherStubBackend weatherSystem 10 []
        weatherQuestion []).memory
      = [weatherQuestion, Msg.assistant "It is 70F in Virginia." []] := by
  have h := (tool_history_accumulate_clear_on_final.1 (weatherExecutor 70)
    weatherStubBackend weatherSystem 10 [] weatherQuestion []).1
    (Msg.assistant "It is 70F in Virginia." []) rfl
  exact ⟨h.1, h.2⟩

end BHTI
